import Mathlib

/-!
Verification of the campaign manager of the affiliate-marketing suite.

The development shallowly embeds `src/campaign_manager.py`.  The registry
state is the list of campaign records held by `CampaignManager.campaigns`;
each Python operation becomes a Lean function from the state (plus its
arguments) to a result-or-error together with the post state.  A Python
exception corresponds to an `Except.error` value, and the returned state
in that case is the state at the moment the exception was raised.

The two collaborators referenced but not defined in the source
(`ProductSelector.select` and `_get_base_url`) are taken as parameters:
`select` is an arbitrary function that may fail, `base_url` an arbitrary
pure function, exactly the contracts the specification assigns to them.
-/

namespace AffiliateSuite

/-- A product record as held inside a campaign: the output of the product
selector, of which the manager only ever reads the `id` field. -/
structure Product where
  id : String
deriving DecidableEq

/-- A campaign record, mirroring the dictionary built by `create_campaign`.
The `tracking_links` dictionary is modelled as an insertion-ordered
association list with unique keys, matching Python dict semantics. -/
structure Campaign where
  id : String
  name : String
  platform : String
  status : String
  products : List Product
  tracking_links : List (String × String)
deriving DecidableEq

/-- The registry state: the `self.campaigns` list of `CampaignManager`. -/
structure CampaignManager where
  campaigns : List Campaign
deriving DecidableEq

/-- The registry of a freshly constructed `CampaignManager`: no campaigns. -/
def initManager : CampaignManager := ⟨[]⟩

/-- The error kinds the manager can raise.  The source raises `ValueError`
with distinct messages from the two distinct guard branches (unknown
campaign, product not assigned); a failure inside the product selector
propagates unchanged.  Each constructor records the offending identifier. -/
inductive Err where
  | NotFound (id : String)
  | NotAssigned (id : String)
  | CollaboratorFailure
deriving DecidableEq

/-- Python dict assignment `d[k] = v` on an insertion-ordered mapping:
replace the value in place when the key is present, else append. -/
def dictInsert : List (String × String) → String → String → List (String × String)
  | [], k, v => [(k, v)]
  | kv :: rest, k, v => if kv.1 == k then (k, v) :: rest else kv :: dictInsert rest k v

/-- Python `k in d` on the association-list model of a dict. -/
def hasKey (d : List (String × String)) (k : String) : Bool :=
  d.any (fun kv => kv.1 == k)

/-- Python `d[k]` lookup on the association-list model of a dict. -/
def lookupDict (d : List (String × String)) (k : String) : Option String :=
  (d.find? (fun kv => kv.1 == k)).map (fun kv => kv.2)

/-- In-place mutation of the first campaign in the list whose id matches,
which is the object Python finds with `next(c for c in self.campaigns if ...)`
returns and the operations then mutate. -/
def updateFirst (f : Campaign → Campaign) (cid : String) : List Campaign → List Campaign
  | [] => []
  | c :: rest => if c.id == cid then f c :: rest else c :: updateFirst f cid rest

/-- Embeds `CampaignManager.create_campaign`: mints the id
`cid_<len(campaigns)+1>`, appends the new record in `active` status with
empty products and links, and returns the id. -/
def create_campaign (m : CampaignManager) (name platform : String) :
    String × CampaignManager :=
  let campaign_id := "cid_" ++ toString (m.campaigns.length + 1)
  (campaign_id,
   ⟨m.campaigns ++ [⟨campaign_id, name, platform, "active", [], []⟩]⟩)

/-- Embeds `CampaignManager.assign_product`: looks up the campaign, raises
`NotFound` when absent, calls the product selector, propagates its failure,
and otherwise replaces the whole product list of the campaign with the
output of the selector. -/
def assign_product (select : List String → Except Unit (List Product))
    (m : CampaignManager) (campaign_id : String) (product_ids : List String) :
    Except Err Unit × CampaignManager :=
  match m.campaigns.find? (fun c => c.id == campaign_id) with
  | none => (.error (.NotFound campaign_id), m)
  | some _ =>
    match select product_ids with
    | .error _ => (.error .CollaboratorFailure, m)
    | .ok selected_products =>
      (.ok (),
       ⟨updateFirst (fun c => { c with products := selected_products })
          campaign_id m.campaigns⟩)

/-- Embeds `CampaignManager.generate_tracking_link`: checks the campaign
exists, then that the product is assigned to it, builds
`base_url(platform)/product_id_<len(tracking_links)+1>`, stores it in the
dict keyed by the product id, and returns it. -/
def generate_tracking_link (base_url : String → String)
    (m : CampaignManager) (campaign_id product_id : String) :
    Except Err String × CampaignManager :=
  match m.campaigns.find? (fun c => c.id == campaign_id) with
  | none => (.error (.NotFound campaign_id), m)
  | some campaign =>
    match campaign.products.find? (fun p => p.id == product_id) with
    | none => (.error (.NotAssigned product_id), m)
    | some _ =>
      let tracking_link :=
        base_url campaign.platform ++ "/" ++ product_id ++ "_"
          ++ toString (campaign.tracking_links.length + 1)
      (.ok tracking_link,
       ⟨updateFirst
          (fun c => { c with
            tracking_links := dictInsert c.tracking_links product_id tracking_link })
          campaign_id m.campaigns⟩)

/-- The metrics snapshot: the `monitor_performance` of the source returns this
literal dictionary for every existing campaign.  The two decimal literals
are modelled as rationals. -/
structure Metrics where
  conversion_rate : Rat
  revenue : Rat
  clicks : Int
  impressions : Int
deriving DecidableEq

/-- The constant dictionary built inside `monitor_performance`. -/
def metricsSnapshot : Metrics :=
  { conversion_rate := 3.5, revenue := 1234.56, clicks := 1000, impressions := 5000 }

/-- Embeds `CampaignManager.monitor_performance`: checks the campaign
exists (raising `NotFound` otherwise) and returns the metrics snapshot,
touching no state. -/
def monitor_performance (m : CampaignManager) (campaign_id : String) :
    Except Err Metrics × CampaignManager :=
  match m.campaigns.find? (fun c => c.id == campaign_id) with
  | none => (.error (.NotFound campaign_id), m)
  | some _ => (.ok metricsSnapshot, m)

/-- One registry call, for reasoning about arbitrary call sequences. -/
inductive Op where
  | create (name platform : String)
  | assign (campaign_id : String) (product_ids : List String)
  | link (campaign_id product_id : String)
  | monitor (campaign_id : String)

/-- The state after one call (failed calls leave the state they returned). -/
def step (select : List String → Except Unit (List Product))
    (base_url : String → String) (m : CampaignManager) : Op → CampaignManager
  | .create name platform => (create_campaign m name platform).2
  | .assign cid pids => (assign_product select m cid pids).2
  | .link cid pid => (generate_tracking_link base_url m cid pid).2
  | .monitor cid => (monitor_performance m cid).2

/-- The state after a sequence of calls. -/
def runOps (select : List String → Except Unit (List Product))
    (base_url : String → String) (m : CampaignManager) : List Op → CampaignManager
  | [] => m
  | op :: ops => runOps select base_url (step select base_url m op) ops

/-- How many of the calls in a sequence are `create_campaign` calls. -/
def countCreates : List Op → Nat
  | [] => 0
  | .create _ _ :: ops => countCreates ops + 1
  | _ :: ops => countCreates ops

/-- The campaign identifiers returned by the `create_campaign` calls of a
call sequence, in order. -/
def createdIds (select : List String → Except Unit (List Product))
    (base_url : String → String) (m : CampaignManager) : List Op → List String
  | [] => []
  | .create name platform :: ops =>
      (create_campaign m name platform).1
        :: createdIds select base_url (step select base_url m (.create name platform)) ops
  | .assign cid pids :: ops =>
      createdIds select base_url (step select base_url m (.assign cid pids)) ops
  | .link cid pid :: ops =>
      createdIds select base_url (step select base_url m (.link cid pid)) ops
  | .monitor cid :: ops =>
      createdIds select base_url (step select base_url m (.monitor cid)) ops

/-- The identifier scheme of `create_campaign`. -/
def cidStr (k : Nat) : String := "cid_" ++ toString k

/-- How many campaigns one call creates (one for `create`, zero otherwise). -/
def opCreates : Op → Nat
  | .create _ _ => 1
  | _ => 0

/-- The keys of the association-list model of a dict, in insertion order. -/
def keysOf (d : List (String × String)) : List String := d.map Prod.fst

/-- Successive `generate_tracking_link` calls for one campaign, one call per
listed product id, collecting each result and threading the state. -/
def linkResults (base_url : String → String) (m : CampaignManager) (cid : String) :
    List String → List (Except Err String) × CampaignManager
  | [] => ([], m)
  | pid :: pids =>
    let r := generate_tracking_link base_url m cid pid
    let rest := linkResults base_url r.2 cid pids
    (r.1 :: rest.1, rest.2)

/-- Modelled from the spec: the link strings the specification predicts for a
sequence of successful calls, with gapless ordinals counting on from
`start + 1`. -/
def specOrdinalLinks (base_url : String → String) (platform : String) :
    Nat → List String → List (Except Err String)
  | _, [] => []
  | start, pid :: pids =>
    .ok (base_url platform ++ "/" ++ pid ++ "_" ++ toString (start + 1))
      :: specOrdinalLinks base_url platform (start + 1) pids

/-- A concrete product selector for witnesses: selects every candidate. -/
def selId : List String → Except Unit (List Product) :=
  fun ids => .ok (ids.map Product.mk)

/-- A concrete failing product selector for witnesses. -/
def selFail : List String → Except Unit (List Product) :=
  fun _ => .error ()

/-- A concrete base-URL resolver for witnesses. -/
def demoBaseUrl : String → String := fun platform => "https://" ++ platform

/-- Witness state: one campaign created. -/
def demoM1 : CampaignManager := (create_campaign initManager "Summer Sale" "Facebook").2

/-- Witness state: products p1 and p2 assigned to campaign cid_1. -/
def demoM2 : CampaignManager := (assign_product selId demoM1 "cid_1" ["p1", "p2"]).2

/-- Decimal decoding of a digit string; a left inverse of `Nat.toDigits 10`,
used to prove the identifier scheme injective. -/
def decodeChars (l : List Char) : Nat :=
  l.foldl (fun a c => a * 10 + (c.toNat - 48)) 0

lemma digitChar_toNat_sub (d : Nat) (h : d < 10) : (Nat.digitChar d).toNat - 48 = d := by
  have h10 : ∀ x : Fin 10, (Nat.digitChar x.val).toNat - 48 = x.val := by decide
  exact h10 ⟨d, h⟩

lemma toDigitsCore_acc (f : Nat) : ∀ (n : Nat) (acc : List Char),
    Nat.toDigitsCore 10 f n acc = Nat.toDigitsCore 10 f n [] ++ acc := by
  induction f with
  | zero => intro n acc; simp [Nat.toDigitsCore]
  | succ f ih =>
    intro n acc
    simp only [Nat.toDigitsCore]
    by_cases h : n / 10 = 0
    · simp [h]
    · simp only [h, if_false]
      rw [ih (n / 10) (Nat.digitChar (n % 10) :: acc),
          ih (n / 10) (Nat.digitChar (n % 10) :: [])]
      simp

lemma decodeChars_toDigitsCore (f : Nat) : ∀ n : Nat, n < f →
    decodeChars (Nat.toDigitsCore 10 f n []) = n := by
  induction f with
  | zero => intro n h; omega
  | succ f ih =>
    intro n h
    simp only [Nat.toDigitsCore]
    by_cases hd : n / 10 = 0
    · simp only [hd, if_true]
      have hone : decodeChars [Nat.digitChar (n % 10)]
          = (Nat.digitChar (n % 10)).toNat - 48 := by
        simp [decodeChars]
      rw [hone, digitChar_toNat_sub (n % 10) (by omega)]
      omega
    · simp only [hd, if_false]
      rw [toDigitsCore_acc f (n / 10) [Nat.digitChar (n % 10)]]
      have hrec : decodeChars (Nat.toDigitsCore 10 f (n / 10) []) = n / 10 :=
        ih (n / 10) (by omega)
      have hsplit : decodeChars (Nat.toDigitsCore 10 f (n / 10) [] ++ [Nat.digitChar (n % 10)])
          = decodeChars (Nat.toDigitsCore 10 f (n / 10) []) * 10
            + ((Nat.digitChar (n % 10)).toNat - 48) := by
        simp [decodeChars, List.foldl_append]
      rw [hsplit, hrec, digitChar_toNat_sub (n % 10) (by omega)]
      omega

lemma natRepr_injective : Function.Injective Nat.repr := by
  intro a b h
  have ha : decodeChars (Nat.toDigits 10 a) = a :=
    decodeChars_toDigitsCore (a + 1) a (Nat.lt_succ_self a)
  have hb : decodeChars (Nat.toDigits 10 b) = b :=
    decodeChars_toDigitsCore (b + 1) b (Nat.lt_succ_self b)
  have hdata : Nat.toDigits 10 a = Nat.toDigits 10 b := congrArg String.data h
  calc a = decodeChars (Nat.toDigits 10 a) := ha.symm
    _ = decodeChars (Nat.toDigits 10 b) := by rw [hdata]
    _ = b := hb

lemma cidStr_injective : Function.Injective cidStr := by
  intro a b h
  have hdata : "cid_".data ++ (Nat.repr a).data = "cid_".data ++ (Nat.repr b).data := by
    have h2 := congrArg String.data h
    simpa [cidStr, toString, String.data_append] using h2
  have hcancel := List.append_cancel_left hdata
  exact natRepr_injective (String.ext hcancel)

lemma updateFirst_length (f : Campaign → Campaign) (cid : String) :
    ∀ cs : List Campaign, (updateFirst f cid cs).length = cs.length := by
  intro cs
  induction cs with
  | nil => rfl
  | cons c rest ih => cases h : (c.id == cid) <;> simp [updateFirst, h, ih]

lemma find?_updateFirst (f : Campaign → Campaign) (cid : String) (c : Campaign)
    (hf : (f c).id = c.id) :
    ∀ cs : List Campaign, cs.find? (fun x => x.id == cid) = some c →
      (updateFirst f cid cs).find? (fun x => x.id == cid) = some (f c) := by
  intro cs
  induction cs with
  | nil => intro h; simp at h
  | cons c0 rest ih =>
    intro h
    cases h0 : (c0.id == cid) with
    | false =>
      have hneg : ¬ (fun x : Campaign => x.id == cid) c0 := by simp [h0]
      rw [List.find?_cons_of_neg rest hneg] at h
      simp only [updateFirst, h0, Bool.false_eq_true, if_false]
      rw [List.find?_cons_of_neg (updateFirst f cid rest) hneg]
      exact ih h
    | true =>
      have hpos : (fun x : Campaign => x.id == cid) c0 := h0
      rw [List.find?_cons_of_pos rest hpos] at h
      have hc : c0 = c := by injection h
      subst hc
      simp only [updateFirst, h0, if_true]
      have hpos2 : ((f c0).id == cid) = true := by rw [hf]; exact h0
      exact List.find?_cons_of_pos rest hpos2

lemma updateFirst_getElem? (f : Campaign → Campaign) (cid : String) :
    ∀ (cs : List Campaign) (i : Nat) (c : Campaign), cs[i]? = some c → c.id ≠ cid →
      (updateFirst f cid cs)[i]? = some c := by
  intro cs
  induction cs with
  | nil => intro i c h _; simp at h
  | cons c0 rest ih =>
    intro i c h hne
    cases h0 : (c0.id == cid) with
    | false =>
      simp only [updateFirst, h0, Bool.false_eq_true, if_false]
      cases i with
      | zero => simpa using h
      | succ j =>
        simp only [List.getElem?_cons_succ] at h ⊢
        exact ih j c h hne
    | true =>
      simp only [updateFirst, h0, if_true]
      cases i with
      | zero =>
        simp only [List.getElem?_cons_zero] at h
        have hc : c0 = c := by injection h
        subst hc
        exact absurd (by simpa using h0) hne
      | succ j => simpa using h

lemma hasKey_cons_false {kv : String × String} {rest : List (String × String)} {k : String}
    (h : hasKey (kv :: rest) k = false) : (kv.1 == k) = false ∧ hasKey rest k = false := by
  simp only [hasKey, List.any_cons, Bool.or_eq_false_iff] at h
  exact ⟨h.1, h.2⟩

lemma dictInsert_of_fresh (k v : String) :
    ∀ d : List (String × String), hasKey d k = false → dictInsert d k v = d ++ [(k, v)] := by
  intro d
  induction d with
  | nil => intro _; rfl
  | cons kv rest ih =>
    intro h
    obtain ⟨h1, h2⟩ := hasKey_cons_false h
    simp only [dictInsert, h1, Bool.false_eq_true, if_false, List.cons_append]
    rw [ih h2]

lemma dictInsert_length_of_hasKey (k v : String) :
    ∀ d : List (String × String), hasKey d k = true → (dictInsert d k v).length = d.length := by
  intro d
  induction d with
  | nil => intro h; simp [hasKey] at h
  | cons kv rest ih =>
    intro h
    cases h1 : (kv.1 == k) with
    | true => simp [dictInsert, h1]
    | false =>
      simp only [hasKey, List.any_cons, h1, Bool.false_or] at h
      simp only [dictInsert, h1, Bool.false_eq_true, if_false, List.length_cons]
      rw [ih h]

lemma lookupDict_dictInsert (k v : String) :
    ∀ d : List (String × String), lookupDict (dictInsert d k v) k = some v := by
  intro d
  induction d with
  | nil => simp [dictInsert, lookupDict]
  | cons kv rest ih =>
    cases h1 : (kv.1 == k) with
    | true => simp [dictInsert, h1, lookupDict]
    | false =>
      simp only [dictInsert, h1, Bool.false_eq_true, if_false]
      unfold lookupDict at ih ⊢
      simp only [List.find?_cons, h1]
      exact ih

lemma monitor_performance_snd (m : CampaignManager) (cid : String) :
    (monitor_performance m cid).2 = m := by
  cases h : m.campaigns.find? (fun c => c.id == cid) <;> simp [monitor_performance, h]

lemma assign_product_snd_length (sel : List String → Except Unit (List Product))
    (m : CampaignManager) (cid : String) (pids : List String) :
    (assign_product sel m cid pids).2.campaigns.length = m.campaigns.length := by
  cases hfind : m.campaigns.find? (fun c => c.id == cid) with
  | none => simp [assign_product, hfind]
  | some c =>
    cases hsel : sel pids with
    | error e => simp [assign_product, hfind, hsel]
    | ok sp => simp [assign_product, hfind, hsel, updateFirst_length]

lemma generate_tracking_link_snd_length (burl : String → String)
    (m : CampaignManager) (cid pid : String) :
    (generate_tracking_link burl m cid pid).2.campaigns.length = m.campaigns.length := by
  cases hfind : m.campaigns.find? (fun c => c.id == cid) with
  | none => simp [generate_tracking_link, hfind]
  | some c =>
    cases hp : c.products.find? (fun p => p.id == pid) with
    | none => simp [generate_tracking_link, hfind, hp]
    | some p => simp [generate_tracking_link, hfind, hp, updateFirst_length]

lemma step_length (sel : List String → Except Unit (List Product))
    (burl : String → String) (m : CampaignManager) (op : Op) :
    (step sel burl m op).campaigns.length = m.campaigns.length + opCreates op := by
  cases op with
  | create name platform => simp [step, create_campaign, opCreates]
  | assign cid pids => simp [step, opCreates, assign_product_snd_length]
  | link cid pid => simp [step, opCreates, generate_tracking_link_snd_length]
  | monitor cid => simp [step, opCreates, monitor_performance_snd]

lemma countCreates_cons (op : Op) (ops : List Op) :
    countCreates (op :: ops) = opCreates op + countCreates ops := by
  cases op with
  | create name platform => simp only [countCreates, opCreates]; omega
  | assign cid pids => simp [countCreates, opCreates]
  | link cid pid => simp [countCreates, opCreates]
  | monitor cid => simp [countCreates, opCreates]

lemma runOps_length (sel : List String → Except Unit (List Product))
    (burl : String → String) :
    ∀ (ops : List Op) (m : CampaignManager),
      (runOps sel burl m ops).campaigns.length = m.campaigns.length + countCreates ops := by
  intro ops
  induction ops with
  | nil => intro m; simp [runOps, countCreates]
  | cons op ops ih =>
    intro m
    rw [runOps, ih, step_length, countCreates_cons]
    omega

lemma createdIds_mem (sel : List String → Except Unit (List Product))
    (burl : String → String) :
    ∀ (ops : List Op) (m : CampaignManager) (s : String),
      s ∈ createdIds sel burl m ops → ∃ k, m.campaigns.length < k ∧ s = cidStr k := by
  intro ops
  induction ops with
  | nil => intro m s h; simp [createdIds] at h
  | cons op ops ih =>
    intro m s h
    cases op with
    | create name platform =>
      rw [createdIds] at h
      rcases List.mem_cons.mp h with hhead | htail
      · refine ⟨m.campaigns.length + 1, Nat.lt_succ_self _, ?_⟩
        rw [hhead]; rfl
      · obtain ⟨k, hk, hs⟩ := ih _ _ htail
        have hlen := step_length sel burl m (.create name platform)
        simp only [opCreates] at hlen
        exact ⟨k, by omega, hs⟩
    | assign cid pids =>
      rw [createdIds] at h
      obtain ⟨k, hk, hs⟩ := ih _ _ h
      have hlen := step_length sel burl m (.assign cid pids)
      simp only [opCreates] at hlen
      exact ⟨k, by omega, hs⟩
    | link cid pid =>
      rw [createdIds] at h
      obtain ⟨k, hk, hs⟩ := ih _ _ h
      have hlen := step_length sel burl m (.link cid pid)
      simp only [opCreates] at hlen
      exact ⟨k, by omega, hs⟩
    | monitor cid =>
      rw [createdIds] at h
      obtain ⟨k, hk, hs⟩ := ih _ _ h
      have hlen := step_length sel burl m (.monitor cid)
      simp only [opCreates] at hlen
      exact ⟨k, by omega, hs⟩

lemma createdIds_nodup (sel : List String → Except Unit (List Product))
    (burl : String → String) :
    ∀ (ops : List Op) (m : CampaignManager), (createdIds sel burl m ops).Nodup := by
  intro ops
  induction ops with
  | nil => intro m; simp [createdIds]
  | cons op ops ih =>
    intro m
    cases op with
    | create name platform =>
      rw [createdIds]
      refine List.nodup_cons.mpr ⟨?_, ih _⟩
      intro hmem
      obtain ⟨k, hk, hs⟩ := createdIds_mem sel burl ops _ _ hmem
      have hhead : (create_campaign m name platform).1 = cidStr (m.campaigns.length + 1) := rfl
      rw [hhead] at hs
      have hkk := cidStr_injective hs
      have hlen := step_length sel burl m (.create name platform)
      simp only [opCreates] at hlen
      omega
    | assign cid pids => rw [createdIds]; exact ih _
    | link cid pid => rw [createdIds]; exact ih _
    | monitor cid => rw [createdIds]; exact ih _

/-- C1: along every sequence of registry calls on a fresh registry — in
particular every sequence of `create_campaign` calls, and no operation
removes campaigns — the campaign identifiers returned by the
`create_campaign` calls are pairwise distinct. -/
theorem create_campaign_ids_distinct
    (select : List String → Except Unit (List Product)) (base_url : String → String)
    (ops : List Op) : (createdIds select base_url initManager ops).Nodup :=
  createdIds_nodup select base_url ops initManager

/-- C7: on every reachable registry state, `create_campaign` succeeds for
any name and platform (empty strings included), returns `cid_<n>` where `n`
is the 1-based count of campaigns ever created in this registry, and
appends a campaign record with that id, the given name and platform, status
active, no products and no tracking links. -/
theorem create_campaign_spec
    (select : List String → Except Unit (List Product)) (base_url : String → String)
    (ops : List Op) (name platform : String) :
    create_campaign (runOps select base_url initManager ops) name platform
      = (cidStr (countCreates ops + 1),
         ⟨(runOps select base_url initManager ops).campaigns
            ++ [⟨cidStr (countCreates ops + 1), name, platform, "active", [], []⟩]⟩) := by
  have hlen := runOps_length select base_url ops initManager
  have h0 : initManager.campaigns.length = 0 := rfl
  rw [h0, Nat.zero_add] at hlen
  simp [create_campaign, cidStr, hlen]

lemma generate_tracking_link_ok (base_url : String → String) (m : CampaignManager)
    (cid pid : String) (c : Campaign) (p : Product)
    (hc : m.campaigns.find? (fun x => x.id == cid) = some c)
    (hp : c.products.find? (fun x => x.id == pid) = some p) :
    generate_tracking_link base_url m cid pid
      = (.ok (base_url c.platform ++ "/" ++ pid ++ "_"
            ++ toString (c.tracking_links.length + 1)),
         ⟨updateFirst
            (fun x => { x with tracking_links := (dictInsert x.tracking_links pid
                (base_url c.platform ++ "/" ++ pid ++ "_"
                  ++ toString (c.tracking_links.length + 1))) })
            cid m.campaigns⟩) := by
  simp [generate_tracking_link, hc, hp]

/-- C3: for an existing campaign and an assigned product, a
`generate_tracking_link` call returns exactly
`base_url(platform) ++ "/" ++ product_id ++ "_" ++ (1 + size of
tracking_links before the call)`, and stores that same string in the
dict of the campaign keyed by the product id, overwriting any previous entry for
that product id. -/
theorem generate_tracking_link_spec (base_url : String → String) (m : CampaignManager)
    (cid pid : String) (c : Campaign) (p : Product)
    (hc : m.campaigns.find? (fun x => x.id == cid) = some c)
    (hp : c.products.find? (fun x => x.id == pid) = some p) :
    (generate_tracking_link base_url m cid pid).1
      = .ok (base_url c.platform ++ "/" ++ pid ++ "_"
          ++ toString (c.tracking_links.length + 1)) ∧
    (generate_tracking_link base_url m cid pid).2.campaigns.find? (fun x => x.id == cid)
      = some { c with tracking_links := (dictInsert c.tracking_links pid
          (base_url c.platform ++ "/" ++ pid ++ "_"
            ++ toString (c.tracking_links.length + 1))) } ∧
    lookupDict (dictInsert c.tracking_links pid
        (base_url c.platform ++ "/" ++ pid ++ "_"
          ++ toString (c.tracking_links.length + 1))) pid
      = some (base_url c.platform ++ "/" ++ pid ++ "_"
          ++ toString (c.tracking_links.length + 1)) := by
  rw [generate_tracking_link_ok base_url m cid pid c p hc hp]
  refine ⟨rfl, ?_, lookupDict_dictInsert _ _ _⟩
  exact find?_updateFirst _ cid c rfl m.campaigns hc

theorem generate_tracking_link_spec_witness :
    (generate_tracking_link demoBaseUrl demoM2 "cid_1" "p1").1 = .ok "https://Facebook/p1_1" ∧
    (generate_tracking_link demoBaseUrl demoM2 "cid_1" "p1").2.campaigns.find?
        (fun x => x.id == "cid_1")
      = some ⟨"cid_1", "Summer Sale", "Facebook", "active", [⟨"p1"⟩, ⟨"p2"⟩],
          [("p1", "https://Facebook/p1_1")]⟩ := by
  have h := generate_tracking_link_spec demoBaseUrl demoM2 "cid_1" "p1"
    ⟨"cid_1", "Summer Sale", "Facebook", "active", [⟨"p1"⟩, ⟨"p2"⟩], []⟩ ⟨"p1"⟩
    (by rfl) (by rfl)
  exact ⟨h.1, h.2.1⟩

/-- C4: `generate_tracking_link` fails with `NotFound` when the campaign id
is unknown — whatever the product argument, so the existence check comes
first — and with the distinct `NotAssigned` kind when the campaign exists
but the product is not in its product list; in both failure cases the
returned state is the unchanged input state, and the two kinds are
distinguishable. -/
theorem generate_tracking_link_errors (base_url : String → String)
    (m : CampaignManager) (cid pid : String) :
    (m.campaigns.find? (fun c => c.id == cid) = none →
      generate_tracking_link base_url m cid pid = (.error (.NotFound cid), m)) ∧
    (∀ c, m.campaigns.find? (fun c => c.id == cid) = some c →
      c.products.find? (fun p => p.id == pid) = none →
      generate_tracking_link base_url m cid pid = (.error (.NotAssigned pid), m)) ∧
    (∀ a b : String, Err.NotFound a ≠ Err.NotAssigned b) := by
  refine ⟨?_, ?_, ?_⟩
  · intro h; simp [generate_tracking_link, h]
  · intro c hc hp; simp [generate_tracking_link, hc, hp]
  · intro a b h; exact Err.noConfusion h

theorem generate_tracking_link_errors_witness :
    generate_tracking_link demoBaseUrl demoM2 "cid_9" "p1"
      = (.error (.NotFound "cid_9"), demoM2) ∧
    generate_tracking_link demoBaseUrl demoM2 "cid_1" "p9"
      = (.error (.NotAssigned "p9"), demoM2) := by
  constructor
  · exact (generate_tracking_link_errors demoBaseUrl demoM2 "cid_9" "p1").1 (by rfl)
  · exact (generate_tracking_link_errors demoBaseUrl demoM2 "cid_1" "p9").2.1
      ⟨"cid_1", "Summer Sale", "Facebook", "active", [⟨"p1"⟩, ⟨"p2"⟩], []⟩ (by rfl) (by rfl)

/-- C5: every operation is atomic — a failed `assign_product` (including a
failure inside the product selector), a failed `generate_tracking_link`,
and a failed `monitor_performance` all return the unchanged input state,
while `create_campaign` always completes and commits exactly the appended
record. -/
theorem operations_atomic (select : List String → Except Unit (List Product))
    (base_url : String → String) (m : CampaignManager) (cid pid : String)
    (pids : List String) (name platform : String) :
    (∀ e, (assign_product select m cid pids).1 = .error e →
      (assign_product select m cid pids).2 = m) ∧
    (∀ e, (generate_tracking_link base_url m cid pid).1 = .error e →
      (generate_tracking_link base_url m cid pid).2 = m) ∧
    (∀ e, (monitor_performance m cid).1 = .error e →
      (monitor_performance m cid).2 = m) ∧
    (create_campaign m name platform).2.campaigns
      = m.campaigns
        ++ [⟨(create_campaign m name platform).1, name, platform, "active", [], []⟩] := by
  refine ⟨?_, ?_, ?_, rfl⟩
  · intro e he
    cases hfind : m.campaigns.find? (fun c => c.id == cid) with
    | none => simp [assign_product, hfind]
    | some c =>
      cases hsel : select pids with
      | error u => simp [assign_product, hfind, hsel]
      | ok sp => simp [assign_product, hfind, hsel] at he
  · intro e he
    cases hfind : m.campaigns.find? (fun c => c.id == cid) with
    | none => simp [generate_tracking_link, hfind]
    | some c =>
      cases hp : c.products.find? (fun p => p.id == pid) with
      | none => simp [generate_tracking_link, hfind, hp]
      | some p => simp [generate_tracking_link, hfind, hp] at he
  · intro e he
    exact monitor_performance_snd m cid

theorem operations_atomic_witness :
    (assign_product selFail demoM1 "cid_1" ["p1"]).2 = demoM1 ∧
    (generate_tracking_link demoBaseUrl demoM1 "cid_9" "p1").2 = demoM1 ∧
    (monitor_performance demoM1 "cid_9").2 = demoM1 := by
  refine ⟨?_, ?_, ?_⟩
  · exact (operations_atomic selFail demoBaseUrl demoM1 "cid_1" "p1" ["p1"] "n" "pl").1
      .CollaboratorFailure (by rfl)
  · exact (operations_atomic selFail demoBaseUrl demoM1 "cid_9" "p1" ["p1"] "n" "pl").2.1
      (.NotFound "cid_9") (by rfl)
  · exact (operations_atomic selFail demoBaseUrl demoM1 "cid_9" "p1" ["p1"] "n" "pl").2.2.1
      (.NotFound "cid_9") (by rfl)

/-- C6: a successful `assign_product` replaces the entire
product list of the campaign with exactly the output of the selector for the given candidate
ids — a full replacement, with nothing of any prior assignment left. -/
theorem assign_product_replaces (select : List String → Except Unit (List Product))
    (m : CampaignManager) (cid : String) (pids : List String) (c : Campaign)
    (selected : List Product)
    (hc : m.campaigns.find? (fun x => x.id == cid) = some c)
    (hs : select pids = .ok selected) :
    (assign_product select m cid pids).1 = .ok () ∧
    (assign_product select m cid pids).2.campaigns.find? (fun x => x.id == cid)
      = some { c with products := selected } := by
  constructor
  · simp [assign_product, hc, hs]
  · have h := find?_updateFirst (fun x => { x with products := selected }) cid c rfl
      m.campaigns hc
    simp only [assign_product, hc, hs]
    exact h

theorem assign_product_replaces_witness :
    (assign_product selId demoM1 "cid_1" ["p1", "p2"]).1 = .ok () ∧
    (assign_product selId demoM1 "cid_1" ["p1", "p2"]).2.campaigns.find?
        (fun x => x.id == "cid_1")
      = some ⟨"cid_1", "Summer Sale", "Facebook", "active", [⟨"p1"⟩, ⟨"p2"⟩], []⟩ :=
  assign_product_replaces selId demoM1 "cid_1" ["p1", "p2"]
    ⟨"cid_1", "Summer Sale", "Facebook", "active", [], []⟩ [⟨"p1"⟩, ⟨"p2"⟩]
    (by rfl) (by rfl)

/-- C8: `monitor_performance` never mutates the registry — the state it
returns is the input state in every case — and it fails with `NotFound`,
mutating nothing, when the campaign id is unknown. -/
theorem monitor_performance_frame (m : CampaignManager) (cid : String) :
    (monitor_performance m cid).2 = m ∧
    (m.campaigns.find? (fun c => c.id == cid) = none →
      (monitor_performance m cid).1 = .error (.NotFound cid)) := by
  refine ⟨monitor_performance_snd m cid, ?_⟩
  intro h
  simp [monitor_performance, h]

theorem monitor_performance_frame_witness :
    (monitor_performance initManager "cid_1").2 = initManager ∧
    (monitor_performance initManager "cid_1").1 = .error (.NotFound "cid_1") :=
  ⟨(monitor_performance_frame initManager "cid_1").1,
   (monitor_performance_frame initManager "cid_1").2 (by rfl)⟩

/-- C10: for every existing campaign, whatever its platform, products,
links or history, `monitor_performance` returns exactly the constant
snapshot with conversion rate 3.5, revenue 1234.56, 1000 clicks and 5000
impressions; clicks and impressions are non-negative with impressions at
least clicks, and any two calls on existing campaigns return equal
snapshots. -/
theorem monitor_performance_constant (m : CampaignManager) (cid : String) (c : Campaign)
    (hc : m.campaigns.find? (fun x => x.id == cid) = some c) :
    (monitor_performance m cid).1 = .ok metricsSnapshot ∧
    metricsSnapshot
      = { conversion_rate := 3.5, revenue := 1234.56, clicks := 1000, impressions := 5000 } ∧
    0 ≤ metricsSnapshot.clicks ∧
    0 ≤ metricsSnapshot.impressions ∧
    metricsSnapshot.clicks ≤ metricsSnapshot.impressions ∧
    (∀ (m2 : CampaignManager) (cid2 : String) (c2 : Campaign),
      m2.campaigns.find? (fun x => x.id == cid2) = some c2 →
      (monitor_performance m2 cid2).1 = (monitor_performance m cid).1) := by
  refine ⟨by simp [monitor_performance, hc], rfl, by decide, by decide, by decide, ?_⟩
  intro m2 cid2 c2 h2
  simp [monitor_performance, hc, h2]

theorem monitor_performance_constant_witness :
    (monitor_performance demoM1 "cid_1").1 = .ok metricsSnapshot ∧
    metricsSnapshot.clicks ≤ metricsSnapshot.impressions := by
  have h := monitor_performance_constant demoM1 "cid_1"
    ⟨"cid_1", "Summer Sale", "Facebook", "active", [], []⟩ (by rfl)
  exact ⟨h.1, h.2.2.2.2.1⟩

/-- C9: every operation mutates at most the campaign named by its
campaign-id argument: any campaign at a position whose id differs from that
argument — and, for `create_campaign`, every pre-existing campaign — is
exactly the same record after the call. -/
theorem operations_touch_one_campaign (select : List String → Except Unit (List Product))
    (base_url : String → String) (m : CampaignManager) (cid pid : String)
    (pids : List String) (name platform : String) (i : Nat) (c : Campaign)
    (hc : m.campaigns[i]? = some c) :
    (create_campaign m name platform).2.campaigns[i]? = some c ∧
    (c.id ≠ cid →
      (assign_product select m cid pids).2.campaigns[i]? = some c ∧
      (generate_tracking_link base_url m cid pid).2.campaigns[i]? = some c ∧
      (monitor_performance m cid).2.campaigns[i]? = some c) := by
  have hilt : i < m.campaigns.length := by
    by_contra hge
    rw [List.getElem?_eq_none (by omega)] at hc
    cases hc
  constructor
  · have hcreate : (create_campaign m name platform).2.campaigns
        = m.campaigns ++ [⟨"cid_" ++ toString (m.campaigns.length + 1),
            name, platform, "active", [], []⟩] := rfl
    rw [hcreate, List.getElem?_append_left hilt]
    exact hc
  · intro hne
    refine ⟨?_, ?_, ?_⟩
    · cases hfind : m.campaigns.find? (fun x => x.id == cid) with
      | none => simpa [assign_product, hfind] using hc
      | some c2 =>
        cases hsel : select pids with
        | error u => simpa [assign_product, hfind, hsel] using hc
        | ok sp =>
          simp only [assign_product, hfind, hsel]
          exact updateFirst_getElem? _ cid m.campaigns i c hc hne
    · cases hfind : m.campaigns.find? (fun x => x.id == cid) with
      | none => simpa [generate_tracking_link, hfind] using hc
      | some c2 =>
        cases hp : c2.products.find? (fun x => x.id == pid) with
        | none => simpa [generate_tracking_link, hfind, hp] using hc
        | some p =>
          simp only [generate_tracking_link, hfind, hp]
          exact updateFirst_getElem? _ cid m.campaigns i c hc hne
    · rw [monitor_performance_snd]
      exact hc

theorem operations_touch_one_campaign_witness :
    ((create_campaign demoM2 "Winter" "Google").2.campaigns[0]?
      = some ⟨"cid_1", "Summer Sale", "Facebook", "active", [⟨"p1"⟩, ⟨"p2"⟩], []⟩) ∧
    ((assign_product selId demoM2 "cid_9" ["p3"]).2.campaigns[0]?
      = some ⟨"cid_1", "Summer Sale", "Facebook", "active", [⟨"p1"⟩, ⟨"p2"⟩], []⟩) := by
  have h := operations_touch_one_campaign selId demoBaseUrl demoM2 "cid_9" "p1" ["p3"]
    "Winter" "Google" 0
    ⟨"cid_1", "Summer Sale", "Facebook", "active", [⟨"p1"⟩, ⟨"p2"⟩], []⟩
    (by rfl)
  exact ⟨h.1, (h.2 (by decide)).1⟩

/-- C2 as stated is false on the code: the ordinal is one plus the size of
the `tracking_links` dict, and regenerating a link for a product that
already holds one overwrites the entry without growing the dict, so three
successive calls for the same product yield ordinals 1, 2, 2 — not the
gapless 1, 2, 3 the claim demands for calls that target a product already
holding a link. -/
theorem tracking_link_ordinals_counterexample :
    (linkResults demoBaseUrl demoM2 "cid_1" ["p1", "p1", "p1"]).1
      = [.ok "https://Facebook/p1_1", .ok "https://Facebook/p1_2",
         .ok "https://Facebook/p1_2"] ∧
    "https://Facebook/p1_2" ≠ "https://Facebook/p1_3" := by
  constructor
  · rfl
  · decide

/-- C2 amended: for every campaign and every sequence of successful
`generate_tracking_link` calls on it in which no call targets a product
already holding a link, the ordinal suffixes embedded in the generated
links are monotonic and gapless, counting on from one plus the number of
links the campaign already holds (so 1, 2, 3, … from a fresh campaign),
independent of which product receives each link. -/
theorem tracking_link_ordinals_amended (base_url : String → String) :
    ∀ (pids : List String) (m : CampaignManager) (cid : String) (c : Campaign),
      m.campaigns.find? (fun x => x.id == cid) = some c →
      pids.Nodup →
      (∀ pid ∈ pids, c.products.any (fun x => x.id == pid) = true) →
      (∀ pid ∈ pids, hasKey c.tracking_links pid = false) →
      (linkResults base_url m cid pids).1
        = specOrdinalLinks base_url c.platform c.tracking_links.length pids := by
  intro pids
  induction pids with
  | nil => intro m cid c hc hnd hprod hfresh; rfl
  | cons pid pids ih =>
    intro m cid c hc hnd hprod hfresh
    have hany : c.products.any (fun x => x.id == pid) = true :=
      hprod pid (List.mem_cons_self _ _)
    obtain ⟨p, hp⟩ : ∃ p, c.products.find? (fun x => x.id == pid) = some p := by
      apply Option.isSome_iff_exists.mp
      rw [List.find?_isSome]
      exact List.any_eq_true.mp hany
    have hgen := generate_tracking_link_ok base_url m cid pid c p hc hp
    have hfresh0 : hasKey c.tracking_links pid = false :=
      hfresh pid (List.mem_cons_self _ _)
    have hins : dictInsert c.tracking_links pid
        (base_url c.platform ++ "/" ++ pid ++ "_"
          ++ toString (c.tracking_links.length + 1))
        = c.tracking_links
          ++ [(pid, base_url c.platform ++ "/" ++ pid ++ "_"
              ++ toString (c.tracking_links.length + 1))] :=
      dictInsert_of_fresh _ _ _ hfresh0
    have hc2 := find?_updateFirst
      (fun x => { x with tracking_links := (dictInsert x.tracking_links pid
          (base_url c.platform ++ "/" ++ pid ++ "_"
            ++ toString (c.tracking_links.length + 1))) })
      cid c rfl m.campaigns hc
    simp only [linkResults, hgen, specOrdinalLinks]
    congr 1
    have hpid_notmem : pid ∉ pids := (List.nodup_cons.mp hnd).1
    have htail := ih ⟨updateFirst
        (fun x => { x with tracking_links := (dictInsert x.tracking_links pid
            (base_url c.platform ++ "/" ++ pid ++ "_"
              ++ toString (c.tracking_links.length + 1))) })
        cid m.campaigns⟩ cid
      { c with tracking_links := (dictInsert c.tracking_links pid
          (base_url c.platform ++ "/" ++ pid ++ "_"
            ++ toString (c.tracking_links.length + 1))) }
      hc2 (List.nodup_cons.mp hnd).2
      (by intro q hq; exact hprod q (List.mem_cons_of_mem _ hq))
      (by
        intro q hq
        show hasKey (dictInsert c.tracking_links pid
          (base_url c.platform ++ "/" ++ pid ++ "_"
            ++ toString (c.tracking_links.length + 1))) q = false
        rw [hins]
        simp only [hasKey, List.any_append, Bool.or_eq_false_iff]
        constructor
        · exact hfresh q (List.mem_cons_of_mem _ hq)
        · simp only [List.any_cons, List.any_nil, Bool.or_false]
          have : pid ≠ q := fun h => hpid_notmem (h ▸ hq)
          simpa using this)
    rw [htail]
    have hlen : (dictInsert c.tracking_links pid
        (base_url c.platform ++ "/" ++ pid ++ "_"
          ++ toString (c.tracking_links.length + 1))).length
        = c.tracking_links.length + 1 := by
      rw [hins, List.length_append, List.length_singleton]
    show specOrdinalLinks base_url c.platform (dictInsert c.tracking_links pid
        (base_url c.platform ++ "/" ++ pid ++ "_"
          ++ toString (c.tracking_links.length + 1))).length pids
      = specOrdinalLinks base_url c.platform (c.tracking_links.length + 1) pids
    rw [hlen]

theorem tracking_link_ordinals_amended_witness :
    (linkResults demoBaseUrl demoM2 "cid_1" ["p1", "p2"]).1
      = [.ok "https://Facebook/p1_1", .ok "https://Facebook/p2_2"] := by
  have h := tracking_link_ordinals_amended demoBaseUrl ["p1", "p2"] demoM2 "cid_1"
    ⟨"cid_1", "Summer Sale", "Facebook", "active", [⟨"p1"⟩, ⟨"p2"⟩], []⟩
    (by rfl) (by decide) (by decide) (by decide)
  rw [h]
  rfl

end AffiliateSuite
